import Mathlib

/-!
Shallow embedding of `pipetools/main.py` (the pipetools library).

The library is a functional-composition DSL over Python's dynamic values:
a `pipe` combinator chaining callables left-to-right, a `maybe` variant
that short-circuits on `None` results, and an `XObject` placeholder that
records operations to be replayed against a concrete value.

Python values are modelled by `PyVal`; Python exceptions by `PyErr`; a
fallible unary callable by `PyFun` (a named function from `PyVal` to
`Except PyErr PyVal`).  Dynamic operator dispatch (`+`, `*`, `%`, `-`,
comparisons, `getattr`, indexing) is modelled by explicit `py*`
functions that raise `TypeError` outside the supported cases, mirroring
CPython's behaviour on the value kinds modelled here.
-/

/-- A Python exception: a class name (kind) and a message. -/
structure PyErr where
  kind : String
  msg : String
deriving Repr, DecidableEq

/-- Python values, restricted to the kinds the claims exercise: `None`,
booleans, integers, strings, lists and record-like objects (a single
record kind models both attribute-bearing objects and dicts). -/
inductive PyVal where
  | none
  | bool (b : Bool)
  | int (n : Int)
  | str (s : String)
  | list (xs : List PyVal)
  | obj (fields : List (String × PyVal))
deriving Repr

/-- `v is None` in Python: the identity test against the unique `None`. -/
def PyVal.isNone : PyVal → Bool
  | PyVal.none => true
  | _ => false

mutual

/-- Structural equality of modelled Python values (CPython `==` on these
kinds compares structurally: lists elementwise, dicts by entries). -/
def PyVal.beq : PyVal → PyVal → Bool
  | PyVal.none, PyVal.none => true
  | PyVal.bool a, PyVal.bool b => a == b
  | PyVal.int a, PyVal.int b => a == b
  | PyVal.str a, PyVal.str b => a == b
  | PyVal.list xs, PyVal.list ys => PyVal.beqList xs ys
  | PyVal.obj xs, PyVal.obj ys => PyVal.beqFields xs ys
  | _, _ => false

/-- Elementwise equality of lists of modelled Python values. -/
def PyVal.beqList : List PyVal → List PyVal → Bool
  | [], [] => true
  | x :: xs, y :: ys => PyVal.beq x y && PyVal.beqList xs ys
  | _, _ => false

/-- Entrywise equality of field lists (order-sensitive model). -/
def PyVal.beqFields : List (String × PyVal) → List (String × PyVal) → Bool
  | [], [] => true
  | (k, x) :: xs, (l, y) :: ys => k == l && PyVal.beq x y && PyVal.beqFields xs ys
  | _, _ => false

end

mutual

/-- `str(v)` for modelled values (list rendering slightly simplified:
elements are shown with `pyStr` rather than `repr`). -/
def pyStr : PyVal → String
  | PyVal.none => "None"
  | PyVal.bool b => if b then "True" else "False"
  | PyVal.int n => toString n
  | PyVal.str s => s
  | PyVal.list xs => "[" ++ pyStrList xs ++ "]"
  | PyVal.obj _ => "<object>"

/-- Comma-separated rendering of a list of modelled values. -/
def pyStrList : List PyVal → String
  | [] => ""
  | [x] => pyStr x
  | x :: xs => pyStr x ++ ", " ++ pyStrList xs

end

/-- The `TypeError` raised by an unsupported operand combination. -/
def typeError (op : String) : PyErr :=
  ⟨"TypeError", "unsupported operand type for " ++ op⟩

/-- Dynamic `x + other`: integer addition, string and list concatenation. -/
def pyAdd : PyVal → PyVal → Except PyErr PyVal
  | PyVal.int a, PyVal.int b => Except.ok (PyVal.int (a + b))
  | PyVal.str a, PyVal.str b => Except.ok (PyVal.str (a ++ b))
  | PyVal.list a, PyVal.list b => Except.ok (PyVal.list (a ++ b))
  | _, _ => Except.error (typeError "+")

/-- Dynamic `x - other`: integer subtraction. -/
def pySub : PyVal → PyVal → Except PyErr PyVal
  | PyVal.int a, PyVal.int b => Except.ok (PyVal.int (a - b))
  | _, _ => Except.error (typeError "-")

/-- Dynamic `x * other`: integer multiplication. -/
def pyMul : PyVal → PyVal → Except PyErr PyVal
  | PyVal.int a, PyVal.int b => Except.ok (PyVal.int (a * b))
  | _, _ => Except.error (typeError "*")

/-- Dynamic `x % y`: Python's floored modulo (`Int.fmod`, whose result
takes the divisor's sign, as in CPython), raising `ZeroDivisionError`
on a zero divisor. -/
def pyMod : PyVal → PyVal → Except PyErr PyVal
  | PyVal.int a, PyVal.int b =>
      if b = 0 then Except.error ⟨"ZeroDivisionError", "integer modulo by zero"⟩
      else Except.ok (PyVal.int (Int.fmod a b))
  | _, _ => Except.error (typeError "%")

/-- Dynamic `-x`: integer negation. -/
def pyNeg : PyVal → Except PyErr PyVal
  | PyVal.int a => Except.ok (PyVal.int (-a))
  | _ => Except.error (typeError "-")

/-- Dynamic `x ** other`: integer power, restricted to non-negative
exponents (a negative exponent yields a float, which is not modelled). -/
def pyPow : PyVal → PyVal → Except PyErr PyVal
  | PyVal.int a, PyVal.int b =>
      if b < 0 then Except.error (typeError "**")
      else Except.ok (PyVal.int (a ^ b.toNat))
  | _, _ => Except.error (typeError "**")

/-- Dynamic `x == other`: total, returns a Python bool. -/
def pyEq (a b : PyVal) : Except PyErr PyVal :=
  Except.ok (PyVal.bool (PyVal.beq a b))

/-- Dynamic `x != other`: total, returns a Python bool. -/
def pyNe (a b : PyVal) : Except PyErr PyVal :=
  Except.ok (PyVal.bool (!PyVal.beq a b))

/-- Dynamic `x < other`: integer comparison (other kinds raise). -/
def pyLt : PyVal → PyVal → Except PyErr PyVal
  | PyVal.int a, PyVal.int b => Except.ok (PyVal.bool (a < b))
  | _, _ => Except.error (typeError "<")

/-- Dynamic `x <= other`: integer comparison. -/
def pyLe : PyVal → PyVal → Except PyErr PyVal
  | PyVal.int a, PyVal.int b => Except.ok (PyVal.bool (a ≤ b))
  | _, _ => Except.error (typeError "<=")

/-- Dynamic `x > other`: integer comparison. -/
def pyGt : PyVal → PyVal → Except PyErr PyVal
  | PyVal.int a, PyVal.int b => Except.ok (PyVal.bool (b < a))
  | _, _ => Except.error (typeError ">")

/-- Dynamic `x >= other`: integer comparison. -/
def pyGe : PyVal → PyVal → Except PyErr PyVal
  | PyVal.int a, PyVal.int b => Except.ok (PyVal.bool (b ≤ a))
  | _, _ => Except.error (typeError ">=")

/-- Dynamic `getattr(x, name)`: field lookup on a record-like object. -/
def pyGetattr : PyVal → String → Except PyErr PyVal
  | PyVal.obj fields, name =>
      match fields.find? (fun kv => kv.1 == name) with
      | some kv => Except.ok kv.2
      | Option.none => Except.error ⟨"AttributeError", "no attribute " ++ name⟩
  | _, name => Except.error ⟨"AttributeError", "no attribute " ++ name⟩

/-- Dynamic `x[item]`: list indexing with CPython's negative-index
wrap-around, and keyed lookup on a record-like object. -/
def pyGetitem : PyVal → PyVal → Except PyErr PyVal
  | PyVal.list xs, PyVal.int i =>
      let n : Int := xs.length
      let j : Int := if i < 0 then n + i else i
      if j < 0 then Except.error ⟨"IndexError", "list index out of range"⟩
      else
        match xs.get? j.toNat with
        | some v => Except.ok v
        | Option.none => Except.error ⟨"IndexError", "list index out of range"⟩
  | PyVal.obj fields, PyVal.str k =>
      match fields.find? (fun kv => kv.1 == k) with
      | some kv => Except.ok kv.2
      | Option.none => Except.error ⟨"KeyError", k⟩
  | _, _ => Except.error (typeError "[]")

/-- Dynamic `x in y`: list membership and object-key membership. -/
def pyIn : PyVal → PyVal → Except PyErr PyVal
  | x, PyVal.list ys => Except.ok (PyVal.bool (ys.any (fun y => PyVal.beq x y)))
  | PyVal.str k, PyVal.obj fields =>
      Except.ok (PyVal.bool (fields.any (fun kv => kv.1 == k)))
  | _, _ => Except.error (typeError "in")

/-- A named fallible unary Python callable: `name` models the
`__name__` attribute, `call` the call behaviour.  Pipelines pass a
single value from stage to stage, so the unary restriction is faithful
for every stage after the first and for every use the claims make. -/
structure PyFun where
  name : String
  call : PyVal → Except PyErr PyVal

/-- Modelled from the spec: `get_name` lives in `pipetools.debug`, which
is not under src/; per the spec it only produces a friendly display name
of a callable, here read off the `name` field (`None` for a missing
function, as for an empty pipe). -/
def get_name : Option PyFun → String
  | some f => f.name
  | Option.none => "None"

/-- Modelled from the spec: `set_name` lives in `pipetools.debug`, which
is not under src/; it assigns a display name to a callable and returns
it, here a record update of the `name` field. -/
def set_name (name : String) (f : PyFun) : PyFun :=
  { f with name := name }

/-- Modelled from the spec: `pipe_exception_handler` lives in
`pipetools.debug`, which is not under src/.  Per the spec there is "no
failure-recovery logic beyond wrapping exceptions with a friendlier
message": a successful result passes through unchanged and an exception
is re-raised with the pipe's name prefixed to its message. -/
def pipe_exception_handler (ctx : String) : Except PyErr PyVal → Except PyErr PyVal
  | Except.ok v => Except.ok v
  | Except.error e => Except.error ⟨e.kind, ctx ++ ": " ++ e.msg⟩

/-- `class Pipe` (main.py lines 5-49): a wrapper around an optional
callable; the empty pipe (`pipe = Pipe()`, line 51) holds `None`. -/
structure Pipe where
  func : Option PyFun

/-- `Pipe.compose` (main.py lines 23-30): merge two callables into one
named composite `first | second` that applies `second` after `first`
inside the exception handler. -/
def Pipe.compose (first second : PyFun) : PyFun :=
  let name := get_name (some first) ++ " | " ++ get_name (some second)
  set_name name
    { name := name
      call := fun x =>
        pipe_exception_handler ("pipe | " ++ name)
          (match first.call x with
           | Except.error e => Except.error e
           | Except.ok v => second.call v) }

/-- `Pipe.bind` (main.py lines 32-37): return the sole non-`None`
operand, or the composite of both.  The source dispatches on `cls`
(so `Maybe.bind` composes with `Maybe.compose`); that classmethod
polymorphism is modelled by passing the subclass's `compose`. -/
def Pipe.bind (comp : PyFun → PyFun → PyFun) : Option PyFun → Option PyFun → Option PyFun
  | first, Option.none => first
  | Option.none, second => second
  | some f, some s => some (comp f s)

/-- `Pipe.__call__` (main.py lines 48-49): call the held function; the
empty pipe's `None` is not callable, which raises `TypeError`. -/
def Pipe.call (p : Pipe) (x : PyVal) : Except PyErr PyVal :=
  match p.func with
  | some f => f.call x
  | Option.none => Except.error ⟨"TypeError", "NoneType object is not callable"⟩

/-- `Pipe.__lt__` (main.py lines 45-46): `p < x` applies the pipe to
`x`, or returns `x` unchanged for the empty pipe. -/
def Pipe.lt (p : Pipe) (thing : PyVal) : Except PyErr PyVal :=
  match p.func with
  | some f => f.call thing
  | Option.none => Except.ok thing

/-- `pipe = Pipe()` (main.py line 51): the empty pipe. -/
def pipe : Pipe := ⟨Option.none⟩

/-- `class Maybe(Pipe)` (main.py lines 54-70): same data as `Pipe`. -/
structure Maybe where
  func : Option PyFun

/-- `Maybe.compose` (main.py lines 56-64): like `Pipe.compose` but the
composite returns `None` without calling `second` when `first`'s result
is `None`. -/
def Maybe.compose (first second : PyFun) : PyFun :=
  let name := get_name (some first) ++ " ?| " ++ get_name (some second)
  set_name name
    { name := name
      call := fun x =>
        pipe_exception_handler ("maybe ?| " ++ name)
          (match first.call x with
           | Except.error e => Except.error e
           | Except.ok v =>
               if v.isNone then Except.ok PyVal.none else second.call v) }

/-- `Maybe.__call__` (inherited from `Pipe`, main.py lines 48-49). -/
def Maybe.call (m : Maybe) (x : PyVal) : Except PyErr PyVal :=
  match m.func with
  | some f => f.call x
  | Option.none => Except.error ⟨"TypeError", "NoneType object is not callable"⟩

/-- `Maybe.__lt__` (main.py lines 66-70): `None` passes through, else
apply the held function (or return the value for the empty maybe). -/
def Maybe.lt (m : Maybe) (thing : PyVal) : Except PyErr PyVal :=
  if thing.isNone then Except.ok PyVal.none
  else
    match m.func with
    | some f => f.call thing
    | Option.none => Except.ok thing

/-- `maybe = Maybe()` (main.py line 72): the empty maybe-pipe. -/
def maybe : Maybe := ⟨Option.none⟩

/-- `Pipe.__or__` (main.py lines 39-40) restricted to an operand that is
already a callable (for which `prepare_function_for_pipe` is the
identity): extend the pipe on the right. -/
def Pipe.orF (p : Pipe) (f : PyFun) : Pipe :=
  ⟨Pipe.bind Pipe.compose p.func (some f)⟩

/-- `Pipe.__ror__` (main.py lines 42-43) restricted to a callable
operand: extend the pipe on the left. -/
def Pipe.rorF (p : Pipe) (f : PyFun) : Pipe :=
  ⟨Pipe.bind Pipe.compose (some f) p.func⟩

/-- `Maybe.__or__` (inherited `__or__` dispatching to `Maybe.compose`
through the `cls` classmethod) restricted to a callable operand. -/
def Maybe.orF (m : Maybe) (f : PyFun) : Maybe :=
  ⟨Pipe.bind Maybe.compose m.func (some f)⟩

/-- `class XObject` (main.py lines 107-181): a placeholder whose
`_func` accumulates a `Pipe` of recorded operations (`None` for the
bare `X`); `xname` models `__name__`. -/
structure XObject where
  _func : Option Pipe
  xname : String

/-- `XObject.__init__` (main.py lines 109-111): name a placeholder
after its accumulated pipe, or `X` when there is none. -/
def XObject.make (func : Option Pipe) : XObject :=
  { _func := func
    xname := match func with
             | some p => get_name p.func
             | Option.none => "X" }

/-- `X = XObject()` (main.py line 184): the bare placeholder. -/
def X : XObject := XObject.make Option.none

/-- `XObject.__invert__` (main.py lines 116-117): `~x` returns the
accumulated pipe as a callable (any `Pipe` instance is truthy), or a
named identity function when nothing was recorded. -/
def xinvert (x : XObject) : PyFun :=
  match x._func with
  | some p => { name := get_name p.func, call := Pipe.call p }
  | Option.none => { name := "X", call := fun v => Except.ok v }

/-- `XObject.bind` (main.py lines 119-124): name the new step and
append it to the accumulated pipe (`self._func | func` when something
was already recorded, else `pipe | func`).  The `UnicodeError` fallback
for exotic names cannot arise for Lean strings. -/
def XObject.bind (x : XObject) (name : String) (call : PyVal → Except PyErr PyVal) :
    XObject :=
  let f : PyFun := { name := name, call := call }
  XObject.make (some (match x._func with
    | some p => Pipe.orF p f
    | Option.none => Pipe.orF pipe f))

/-- `XObject.__eq__` (main.py lines 130-131). -/
def XObject.eq (x : XObject) (other : PyVal) : XObject :=
  x.bind ("X == " ++ pyStr other) (fun v => pyEq v other)

/-- `XObject.__getattr__` (main.py lines 133-134). -/
def XObject.getattr (x : XObject) (name : String) : XObject :=
  x.bind ("X." ++ name) (fun v => pyGetattr v name)

/-- `XObject.__getitem__` (main.py lines 136-137). -/
def XObject.getitem (x : XObject) (item : PyVal) : XObject :=
  x.bind ("X[" ++ pyStr item ++ "]") (fun v => pyGetitem v item)

/-- `XObject.__gt__` (main.py lines 139-140). -/
def XObject.gt (x : XObject) (other : PyVal) : XObject :=
  x.bind ("X > " ++ pyStr other) (fun v => pyGt v other)

/-- `XObject.__ge__` (main.py lines 142-143). -/
def XObject.ge (x : XObject) (other : PyVal) : XObject :=
  x.bind ("X >= " ++ pyStr other) (fun v => pyGe v other)

/-- `XObject.__lt__` (main.py lines 145-146). -/
def XObject.lt (x : XObject) (other : PyVal) : XObject :=
  x.bind ("X < " ++ pyStr other) (fun v => pyLt v other)

/-- `XObject.__le__` (main.py lines 148-149). -/
def XObject.le (x : XObject) (other : PyVal) : XObject :=
  x.bind ("X <= " ++ pyStr other) (fun v => pyLe v other)

/-- `XObject.__mod__` (main.py lines 151-152). -/
def XObject.mod (x : XObject) (y : PyVal) : XObject :=
  x.bind ("X % " ++ pyStr y) (fun v => pyMod v y)

/-- `XObject.__ne__` (main.py lines 154-155). -/
def XObject.ne (x : XObject) (other : PyVal) : XObject :=
  x.bind ("X != " ++ pyStr other) (fun v => pyNe v other)

/-- `XObject.__neg__` (main.py lines 157-158). -/
def XObject.neg (x : XObject) : XObject :=
  x.bind "-X" (fun v => pyNeg v)

/-- `XObject.__mul__` (main.py lines 160-161). -/
def XObject.mul (x : XObject) (other : PyVal) : XObject :=
  x.bind ("X * " ++ pyStr other) (fun v => pyMul v other)

/-- `XObject.__add__` (main.py lines 163-164). -/
def XObject.add (x : XObject) (other : PyVal) : XObject :=
  x.bind ("X + " ++ pyStr other) (fun v => pyAdd v other)

/-- `XObject.__sub__` (main.py lines 166-167). -/
def XObject.sub (x : XObject) (other : PyVal) : XObject :=
  x.bind ("X - " ++ pyStr other) (fun v => pySub v other)

/-- `XObject.__pow__` (main.py lines 169-170). -/
def XObject.pow (x : XObject) (other : PyVal) : XObject :=
  x.bind ("X ** " ++ pyStr other) (fun v => pyPow v other)

/-- `XObject._in_` (main.py lines 180-181). -/
def XObject.in_ (x : XObject) (y : PyVal) : XObject :=
  x.bind ("X._in_(" ++ pyStr y ++ ")") (fun v => pyIn v y)

/-- A Python callable of several positional arguments, as curried by
`xcurry`; keyword arguments are not modelled. -/
structure MultiFun where
  name : String
  call : List PyVal → Except PyErr PyVal

/-- A positional argument given to `xcurry`: either a placeholder to be
replaced, or a plain value. -/
inductive XArg where
  | xobj (x : XObject)
  | val (v : PyVal)

/-- The `use` helper inside `xcurry` (main.py line 215): replay a
placeholder against the first positional argument, pass values through. -/
def xuse (a : XArg) (first : PyVal) : Except PyErr PyVal :=
  match a with
  | XArg.xobj x => (xinvert x).call first
  | XArg.val v => Except.ok v

/-- The `any_x` test inside `xcurry` (main.py line 214). -/
def anyX (xargs : List XArg) : Bool :=
  xargs.any (fun a => match a with | XArg.xobj _ => true | XArg.val _ => false)

/-- `xcurry` (main.py lines 187-233) restricted to positional arguments
and a unary curried result (pipelines call each stage with one value):
with a placeholder among the curried arguments, each placeholder is
replayed against the call's argument; otherwise the argument is
appended after the curried ones. -/
def xcurry (func : MultiFun) (xargs : List XArg) : PyFun :=
  { name := func.name ++ "(...)"
    call := fun arg =>
      if anyX xargs then
        match xargs.mapM (fun a => xuse a arg) with
        | Except.error e => Except.error e
        | Except.ok args => func.call args
      else
        func.call ((xargs.map (fun a => match a with
          | XArg.val v => v
          | XArg.xobj _ => PyVal.none)) ++ [arg]) }

/-- The substitution core of `unicode(template).format` (a CPython
builtin, not repository code), modelled as replacing each empty
placeholder `\x7b\x7d` by the string form of the first argument. -/
def strFormat (template : String) (args : List PyVal) : String :=
  match args with
  | [] => template
  | a :: _ => template.replace "\x7b\x7d" (pyStr a)

/-- `_iterable` (main.py lines 101-104): lists and record objects have
`__iter__`; strings (basestring) are excluded. -/
def _iterable : PyVal → Bool
  | PyVal.list _ => true
  | PyVal.obj _ => true
  | _ => false

/-- `StringFormatter` (main.py lines 87-98): format dict content as
keyword arguments, iterable content as positional arguments, anything
else as the single argument. -/
def StringFormatter (template : String) : PyFun :=
  { name := "format(" ++ template.take 20 ++ ")"
    call := fun content =>
      Except.ok (PyVal.str (
        match content with
        | PyVal.obj _ => strFormat template [content]
        | PyVal.list xs => strFormat template xs
        | _ => strFormat template [content])) }

/-- The kinds of operand `Pipe.__or__` can receive, matching the
`isinstance` cascade of `prepare_function_for_pipe`: a placeholder, a
tuple (function with curried arguments), a string template, a callable,
or a plain non-callable value (the failing case). -/
inductive Thing where
  | xobj (x : XObject)
  | tup (f : MultiFun) (xargs : List XArg)
  | str (s : String)
  | callable (f : PyFun)
  | value (v : PyVal)

/-- `prepare_function_for_pipe` (main.py lines 75-84): placeholders are
replayed, tuples curried, strings become formatters, callables pass
through, and anything else raises `ValueError` immediately. -/
def prepare_function_for_pipe : Thing → Except PyErr PyFun
  | Thing.xobj x => Except.ok (xinvert x)
  | Thing.tup f xargs => Except.ok (xcurry f xargs)
  | Thing.str s => Except.ok (StringFormatter s)
  | Thing.callable f => Except.ok f
  | Thing.value v => Except.error ⟨"ValueError", "Cannot pipe " ++ pyStr v⟩

/-- `Pipe.__or__` (main.py lines 39-40) on an arbitrary operand:
prepare it (which may raise), then bind. -/
def Pipe.orT (p : Pipe) (thing : Thing) : Except PyErr Pipe :=
  match prepare_function_for_pipe thing with
  | Except.error e => Except.error e
  | Except.ok f => Except.ok (Pipe.orF p f)

/-- Left fold of `__or__` steps over prepared callables, starting from
an empty combinator: this is exactly how `pipe | f1 | ... | fn` and
`maybe | f1 | ... | fn` are built (the subclass's `compose` is the
parameter). -/
def chainOpt (comp : PyFun → PyFun → PyFun) (fs : List PyFun) : Option PyFun :=
  fs.foldl (fun acc f => Pipe.bind comp acc (some f)) Option.none

/-- The pipe `pipe | f1 | ... | fn`. -/
def pipeOfList (fs : List PyFun) : Pipe :=
  ⟨chainOpt Pipe.compose fs⟩

/-- The maybe-pipe `maybe | f1 | ... | fn`. -/
def maybeOfList (fs : List PyFun) : Maybe :=
  ⟨chainOpt Maybe.compose fs⟩

/-- Specification of sequential left-to-right application: apply `f1`
first, feed its result to `f2`, and so on; an exception stops the run. -/
def runSeq : List PyFun → PyVal → Except PyErr PyVal
  | [], x => Except.ok x
  | f :: rest, x =>
      match f.call x with
      | Except.error e => Except.error e
      | Except.ok v => runSeq rest v

/-- Specification of maybe-application: like `runSeq` but a `None`
result stops the run with overall result `None`, skipping all later
stages. -/
def runMaybeSeq : List PyFun → PyVal → Except PyErr PyVal
  | [], x => Except.ok x
  | f :: rest, x =>
      match f.call x with
      | Except.error e => Except.error e
      | Except.ok v =>
          if v.isNone then Except.ok PyVal.none else runMaybeSeq rest v

/-- `true` when the sequential run from `x` succeeds at every stage and
never produces a `None` intermediate or final result. -/
def seqNoNone : List PyFun → PyVal → Bool
  | [], _ => true
  | f :: rest, x =>
      match f.call x with
      | Except.error _ => false
      | Except.ok v => !v.isNone && seqNoNone rest v

/-- A concrete stage: add one to an integer. -/
def incF : PyFun := ⟨"inc", fun v => pyAdd v (PyVal.int 1)⟩

/-- A concrete stage: double an integer. -/
def dblF : PyFun := ⟨"dbl", fun v => pyMul v (PyVal.int 2)⟩

/-- A concrete stage that returns `None` on every input. -/
def constNoneF : PyFun := ⟨"constNone", fun _ => Except.ok PyVal.none⟩

/-- A concrete stage that raises on every input. -/
def failF : PyFun := ⟨"boom", fun _ => Except.error ⟨"RuntimeError", "boom"⟩⟩

/-! ### Helper lemmas -/

theorem PyVal.isNone_iff (v : PyVal) : v.isNone = true ↔ v = PyVal.none := by
  cases v <;> simp [PyVal.isNone]

theorem handler_ok (ctx : String) (r : Except PyErr PyVal) (v : PyVal) :
    pipe_exception_handler ctx r = Except.ok v ↔ r = Except.ok v := by
  cases r <;> simp [pipe_exception_handler]

theorem chainOpt_fold (comp : PyFun → PyFun → PyFun) (g : PyFun) (fs : List PyFun) :
    fs.foldl (fun acc f => Pipe.bind comp acc (some f)) (some g)
      = some (fs.foldl comp g) := by
  induction fs generalizing g with
  | nil => rfl
  | cons f t ih =>
      simp only [List.foldl]
      exact ih (comp g f)

theorem chainOpt_cons (comp : PyFun → PyFun → PyFun) (f : PyFun) (fs : List PyFun) :
    chainOpt comp (f :: fs) = some (fs.foldl comp f) := by
  simp only [chainOpt, List.foldl]
  exact chainOpt_fold comp f fs

theorem foldl_pipe_compose_ok (fs : List PyFun) (g : PyFun) (x v : PyVal) :
    (fs.foldl Pipe.compose g).call x = Except.ok v ↔ runSeq (g :: fs) x = Except.ok v := by
  induction fs generalizing g x with
  | nil => cases hg : g.call x <;> simp [runSeq, hg, List.foldl]
  | cons h t ih =>
      simp only [List.foldl]
      rw [ih]
      cases hg : g.call x with
      | error e =>
          simp [runSeq, hg, Pipe.compose, set_name, get_name, pipe_exception_handler]
      | ok w =>
          cases hh : h.call w with
          | error e =>
              simp [runSeq, hg, hh, Pipe.compose, set_name, get_name,
                pipe_exception_handler]
          | ok u =>
              simp [runSeq, hg, hh, Pipe.compose, set_name, get_name,
                pipe_exception_handler]

theorem foldl_maybe_compose_ok (fs : List PyFun) (g : PyFun) (x v : PyVal) :
    (fs.foldl Maybe.compose g).call x = Except.ok v
      ↔ runMaybeSeq (g :: fs) x = Except.ok v := by
  induction fs generalizing g x with
  | nil =>
      cases hg : g.call x with
      | error e => simp [runMaybeSeq, hg]
      | ok w =>
          cases hwn : w.isNone with
          | true =>
              have hw : w = PyVal.none := (PyVal.isNone_iff w).mp hwn
              subst hw
              simp [runMaybeSeq, hg, PyVal.isNone]
          | false => simp [runMaybeSeq, hg, hwn]
  | cons h t ih =>
      simp only [List.foldl]
      rw [ih]
      cases hg : g.call x with
      | error e =>
          simp [runMaybeSeq, hg, Maybe.compose, set_name, get_name,
            pipe_exception_handler]
      | ok w =>
          cases hwn : w.isNone with
          | true =>
              have hw : w = PyVal.none := (PyVal.isNone_iff w).mp hwn
              subst hw
              simp [runMaybeSeq, hg, Maybe.compose, set_name, get_name,
                pipe_exception_handler, PyVal.isNone]
          | false =>
              cases hh : h.call w with
              | error e =>
                  simp [runMaybeSeq, hg, hh, hwn, Maybe.compose, set_name, get_name,
                    pipe_exception_handler]
              | ok u =>
                  simp [runMaybeSeq, hg, hh, hwn, Maybe.compose, set_name, get_name,
                    pipe_exception_handler]

theorem pipe_call_cons (f : PyFun) (fs : List PyFun) (x v : PyVal) :
    (pipeOfList (f :: fs)).call x = Except.ok v ↔ runSeq (f :: fs) x = Except.ok v := by
  rw [show pipeOfList (f :: fs) = ⟨some (fs.foldl Pipe.compose f)⟩ from
    congrArg Pipe.mk (chainOpt_cons Pipe.compose f fs)]
  exact foldl_pipe_compose_ok fs f x v

theorem maybe_call_cons (f : PyFun) (fs : List PyFun) (x v : PyVal) :
    (maybeOfList (f :: fs)).call x = Except.ok v
      ↔ runMaybeSeq (f :: fs) x = Except.ok v := by
  rw [show maybeOfList (f :: fs) = ⟨some (fs.foldl Maybe.compose f)⟩ from
    congrArg Maybe.mk (chainOpt_cons Maybe.compose f fs)]
  exact foldl_maybe_compose_ok fs f x v

theorem runMaybeSeq_append (fs : List PyFun) (x u : PyVal)
    (h1 : runMaybeSeq fs x = Except.ok u) (h2 : u ≠ PyVal.none) (rest : List PyFun) :
    runMaybeSeq (fs ++ rest) x = runMaybeSeq rest u := by
  induction fs generalizing x with
  | nil =>
      simp only [runMaybeSeq] at h1
      injection h1 with h
      subst h
      rfl
  | cons f t ih =>
      cases hf : f.call x with
      | error e =>
          simp only [runMaybeSeq, hf] at h1
          exact absurd h1 (by simp)
      | ok w =>
          simp only [List.cons_append, runMaybeSeq, hf] at h1 ⊢
          cases hwn : w.isNone with
          | true =>
              rw [hwn] at h1
              have h : PyVal.none = u := by simpa using h1
              exact absurd h.symm h2
          | false =>
              rw [hwn] at h1
              simp only [Bool.false_eq_true, if_false] at h1 ⊢
              exact ih w h1

theorem runSeq_noNone_maybe (fs : List PyFun) (x v : PyVal)
    (h1 : runSeq fs x = Except.ok v) (h2 : seqNoNone fs x = true) :
    runMaybeSeq fs x = Except.ok v := by
  induction fs generalizing x with
  | nil => exact h1
  | cons f t ih =>
      cases hf : f.call x with
      | error e =>
          simp only [runSeq, hf] at h1
          exact absurd h1 (by simp)
      | ok w =>
          simp only [runSeq, seqNoNone, runMaybeSeq, hf] at h1 h2 ⊢
          simp only [Bool.and_eq_true, Bool.not_eq_true'] at h2
          rw [h2.1]
          simp only [Bool.false_eq_true, if_false]
          exact ih w h1 h2.2

/-! ### Claim theorems -/

/-- C1: the pipe built by chaining left-to-right, `pipe | f | g`, returns
`g(f(x))` when called on `x` (up to the success results: the composite
succeeds with `v` exactly when feeding `x` through `f` then `g`
succeeds with `v`); more generally `pipe | f1 | ... | fn` applies `f1`
first and `fn` last, as captured by the sequential runner `runSeq`. -/
theorem pipe_applies_left_to_right (f g : PyFun) (fs : List PyFun) (x v : PyVal) :
    ((pipeOfList [f, g]).call x = Except.ok v ↔ (f.call x).bind g.call = Except.ok v)
    ∧ ((pipeOfList (f :: fs)).call x = Except.ok v ↔ runSeq (f :: fs) x = Except.ok v) := by
  constructor
  · rw [pipe_call_cons]
    cases hf : f.call x with
    | error e => simp [runSeq, hf, Except.bind]
    | ok w => cases hg : g.call w <;> simp [runSeq, hf, hg, Except.bind]
  · exact pipe_call_cons f fs x v

/-- C2: in a maybe-pipeline, once a stage returns `None` the whole
pipeline returns `None`, and no later stage is applied: the result is
`None` for every choice of the remaining stages `gs`. -/
theorem maybe_short_circuits_on_none (fs : List PyFun) (f : PyFun) (gs : List PyFun)
    (x u : PyVal) (h1 : runMaybeSeq fs x = Except.ok u) (h2 : u ≠ PyVal.none)
    (h3 : f.call u = Except.ok PyVal.none) :
    (maybeOfList (fs ++ f :: gs)).call x = Except.ok PyVal.none := by
  have htail : runMaybeSeq (f :: gs) u = Except.ok PyVal.none := by
    simp [runMaybeSeq, h3, PyVal.isNone]
  have hrun : runMaybeSeq (fs ++ f :: gs) x = Except.ok PyVal.none := by
    rw [runMaybeSeq_append fs x u h1 h2 (f :: gs)]
    exact htail
  cases fs with
  | nil => exact (maybe_call_cons f gs x PyVal.none).mpr (by simpa using hrun)
  | cons a t =>
      exact (maybe_call_cons a (t ++ f :: gs) x PyVal.none).mpr (by simpa using hrun)

/-- Witness for C2: `maybe | inc | constNone | dbl` applied to `3`
returns `None` (the `dbl` stage is skipped). -/
theorem maybe_short_circuits_on_none_witness :
    (maybeOfList ([incF] ++ constNoneF :: [dblF])).call (PyVal.int 3)
      = Except.ok PyVal.none :=
  maybe_short_circuits_on_none [incF] constNoneF [dblF] (PyVal.int 3) (PyVal.int 4)
    rfl (fun h => PyVal.noConfusion h) rfl

/-- C3: replaying a single recorded operation on the placeholder `X`
against a concrete value `v` yields exactly the result of performing
that operation directly on `v`: attribute access, indexing, all six
comparisons, and the arithmetic operations. -/
theorem placeholder_single_op_replay (v other k : PyVal) (a : String) :
    (xinvert (XObject.getattr X a)).call v = pyGetattr v a
    ∧ (xinvert (XObject.getitem X k)).call v = pyGetitem v k
    ∧ (xinvert (XObject.eq X other)).call v = pyEq v other
    ∧ (xinvert (XObject.ne X other)).call v = pyNe v other
    ∧ (xinvert (XObject.lt X other)).call v = pyLt v other
    ∧ (xinvert (XObject.le X other)).call v = pyLe v other
    ∧ (xinvert (XObject.gt X other)).call v = pyGt v other
    ∧ (xinvert (XObject.ge X other)).call v = pyGe v other
    ∧ (xinvert (XObject.add X other)).call v = pyAdd v other
    ∧ (xinvert (XObject.sub X other)).call v = pySub v other
    ∧ (xinvert (XObject.mul X other)).call v = pyMul v other
    ∧ (xinvert (XObject.mod X other)).call v = pyMod v other
    ∧ (xinvert (XObject.pow X other)).call v = pyPow v other
    ∧ (xinvert (XObject.neg X)).call v = pyNeg v :=
  ⟨rfl, rfl, rfl, rfl, rfl, rfl, rfl, rfl, rfl, rfl, rfl, rfl, rfl, rfl⟩

/-- C4: several operations recorded on `X` replay in the order they
were recorded (left-to-right): `(~((X + a) * b))(v) = (v + a) * b` and
`(~((X * b) + a))(v) = v * b + a` on integers, and in general a
recorded addition-then-multiplication replays the addition first. -/
theorem placeholder_replay_recorded_order :
    (∀ v a b : Int,
      (xinvert ((X.add (PyVal.int a)).mul (PyVal.int b))).call (PyVal.int v)
        = Except.ok (PyVal.int ((v + a) * b)))
    ∧ (∀ v a b : Int,
      (xinvert ((X.mul (PyVal.int b)).add (PyVal.int a))).call (PyVal.int v)
        = Except.ok (PyVal.int (v * b + a)))
    ∧ (∀ (v w u a b : PyVal), pyAdd v a = Except.ok w → pyMul w b = Except.ok u →
      (xinvert ((X.add a).mul b)).call v = Except.ok u) := by
  refine ⟨fun v a b => rfl, fun v a b => rfl, fun v w u a b hadd hmul => ?_⟩
  simp [XObject.add, XObject.mul, XObject.bind, XObject.make, xinvert, Pipe.orF,
    Pipe.bind, Pipe.call, Pipe.compose, set_name, get_name, pipe_exception_handler,
    pipe, X, hadd, hmul]

/-- Witness for C4: `(~((X + 2) * 3))(4) = 18`. -/
theorem placeholder_replay_recorded_order_witness :
    (xinvert ((X.add (PyVal.int 2)).mul (PyVal.int 3))).call (PyVal.int 4)
      = Except.ok (PyVal.int 18) :=
  placeholder_replay_recorded_order.2.2 (PyVal.int 4) (PyVal.int 6) (PyVal.int 18)
    (PyVal.int 2) (PyVal.int 3) rfl rfl

/-- C5: away from nulls, `maybe` agrees with `pipe`: if feeding `x`
through the stages succeeds with no `None` intermediate result, the
maybe-pipeline and the pipe-pipeline return the same result. -/
theorem maybe_agrees_with_pipe (f : PyFun) (fs : List PyFun) (x v : PyVal)
    (h1 : runSeq (f :: fs) x = Except.ok v) (h2 : seqNoNone (f :: fs) x = true) :
    (maybeOfList (f :: fs)).call x = (pipeOfList (f :: fs)).call x := by
  have hm := runSeq_noNone_maybe (f :: fs) x v h1 h2
  rw [(maybe_call_cons f fs x v).mpr hm, (pipe_call_cons f fs x v).mpr h1]

/-- Witness for C5: `maybe | inc | dbl` and `pipe | inc | dbl` agree
at `3`. -/
theorem maybe_agrees_with_pipe_witness :
    (maybeOfList (incF :: [dblF])).call (PyVal.int 3)
      = (pipeOfList (incF :: [dblF])).call (PyVal.int 3) :=
  maybe_agrees_with_pipe incF [dblF] (PyVal.int 3) (PyVal.int 8) rfl rfl

/-- C6: when a stage raises during a call, the pipe performs no failure
recovery: the composite returns no substitute value, the later stage is
not executed (the result below does not depend on `g`'s behaviour, only
on its name), and the exception propagates re-wrapped with the pipe's
name prefixed to its message; likewise for `maybe`, and for an
exception raised by the second stage. -/
theorem pipe_propagates_exceptions (f g : PyFun) (x : PyVal) :
    (∀ e, f.call x = Except.error e →
      (Pipe.compose f g).call x =
        Except.error ⟨e.kind, "pipe | " ++ (f.name ++ " | " ++ g.name) ++ ": " ++ e.msg⟩
      ∧ (Maybe.compose f g).call x =
        Except.error ⟨e.kind, "maybe ?| " ++ (f.name ++ " ?| " ++ g.name) ++ ": " ++ e.msg⟩)
    ∧ (∀ w e, f.call x = Except.ok w → g.call w = Except.error e →
      (Pipe.compose f g).call x =
        Except.error ⟨e.kind, "pipe | " ++ (f.name ++ " | " ++ g.name) ++ ": " ++ e.msg⟩) := by
  constructor
  · intro e he
    constructor
    · simp [Pipe.compose, set_name, get_name, pipe_exception_handler, he]
    · simp [Maybe.compose, set_name, get_name, pipe_exception_handler, he]
  · intro w e hw he
    simp [Pipe.compose, set_name, get_name, pipe_exception_handler, hw, he]

/-- Witness for C6: composing the raising stage with `dbl` and calling
on `0` yields the original exception re-wrapped with the pipe name. -/
theorem pipe_propagates_exceptions_witness :
    (Pipe.compose failF dblF).call (PyVal.int 0) =
      Except.error ⟨"RuntimeError",
        "pipe | " ++ (failF.name ++ " | " ++ dblF.name) ++ ": " ++ "boom"⟩ :=
  ((pipe_propagates_exceptions failF dblF (PyVal.int 0)).1
    ⟨"RuntimeError", "boom"⟩ rfl).1

/-- C7: `Pipe.compose` merges two callables into one named composite:
its `__name__` is the first name, a pipe bar, and the second name, and
its call behaviour is `second` after `first` (the composite succeeds
with `v` exactly when `first` then `second` succeeds with `v`). -/
theorem compose_builds_named_composite (f g : PyFun) :
    (Pipe.compose f g).name = f.name ++ " | " ++ g.name
    ∧ ∀ x v, ((Pipe.compose f g).call x = Except.ok v
        ↔ (f.call x).bind g.call = Except.ok v) := by
  constructor
  · rfl
  · intro x v
    cases hf : f.call x with
    | error e =>
        simp [Pipe.compose, set_name, get_name, pipe_exception_handler, hf, Except.bind]
    | ok w =>
        cases hg : g.call w <;>
          simp [Pipe.compose, set_name, get_name, pipe_exception_handler, hf, hg,
            Except.bind]

/-- C8: the empty pipe is an identity for chaining: `(pipe | f)(x)` and
`(f | pipe)(x)` both equal `f(x)`, because `Pipe.bind` returns the sole
non-`None` operand unchanged instead of composing. -/
theorem empty_pipe_is_identity (f : PyFun) (x : PyVal) :
    (Pipe.orF pipe f).call x = f.call x
    ∧ (Pipe.rorF pipe f).call x = f.call x
    ∧ Pipe.bind Pipe.compose (some f) Option.none = some f
    ∧ Pipe.bind Pipe.compose Option.none (some f) = some f :=
  ⟨rfl, rfl, rfl, rfl⟩

/-- C9: chaining a non-pipeable operand (not a placeholder, tuple,
string, or callable) onto a pipe raises `ValueError` at construction
time, before the pipe is ever called, while every pipeable kind of
operand is accepted; the construction is pure, so the original pipe is
unaffected by the failed attempt. -/
theorem non_pipeable_operand_raises (p : Pipe) (v : PyVal) :
    Pipe.orT p (Thing.value v) =
      Except.error ⟨"ValueError", "Cannot pipe " ++ pyStr v⟩
    ∧ (∀ x : XObject, Pipe.orT p (Thing.xobj x) = Except.ok (Pipe.orF p (xinvert x)))
    ∧ (∀ g : PyFun, Pipe.orT p (Thing.callable g) = Except.ok (Pipe.orF p g))
    ∧ (∀ s : String, Pipe.orT p (Thing.str s) = Except.ok (Pipe.orF p (StringFormatter s)))
    ∧ (∀ (g : MultiFun) (xargs : List XArg),
        Pipe.orT p (Thing.tup g xargs) = Except.ok (Pipe.orF p (xcurry g xargs))) :=
  ⟨rfl, fun _ => rfl, fun _ => rfl, fun _ => rfl, fun _ _ => rfl⟩

/-- C10: recording an operation never mutates the placeholder: the
embedding is pure, the bare `X` keeps an empty chain, `~X` replays as
the identity, every recording produces a fresh `XObject` carrying a
non-empty chain, and the same `X` can be reused in several independent
expressions (here `X + a` and `X * b`). -/
theorem placeholder_recording_pure (v a b : PyVal) :
    X._func = Option.none
    ∧ (xinvert X).call v = Except.ok v
    ∧ (∀ (name : String) (call : PyVal → Except PyErr PyVal),
        (XObject.bind X name call)._func ≠ Option.none)
    ∧ (xinvert (XObject.add X a)).call v = pyAdd v a
    ∧ (xinvert (XObject.mul X b)).call v = pyMul v b := by
  refine ⟨rfl, rfl, fun name call => ?_, rfl, rfl⟩
  simp [XObject.bind, XObject.make]
